import Mathlib

/-!
Shallow embedding of the interactive character grid of this repository
(the InteractiveGrid component): ripple tracking (handleClick and the
per-frame ripple advance), the per-frame activation field update of the
animate loop, and the presentation mapper getCharAndStyle.  Coordinates,
ripple state and the pointer position are rationals (event payloads);
activation values live in the reals because the pointer and ripple
stimuli divide a Euclidean distance (a square root) by a constant.
-/

/-- Number of grid columns (the source constant cols = 28). -/
def cols : ℕ := 28

/-- Number of grid rows (the source constant rows = 18). -/
def rows : ℕ := 18

/-- Total number of cells (cols * rows in the source). -/
def totalCells : ℕ := cols * rows

/-- The ordered symbol palette (the source array chars, sparse to dense). -/
def chars : List String := ["·", "•", "○", "◉", "●"]

/-- A ripple record, as in the source: origin, current radius, the maximal
radius and the current opacity. -/
structure Ripple where
  x : ℚ
  y : ℚ
  radius : ℚ
  maxRadius : ℚ
  opacity : ℚ

/-- The click handler: push a fresh ripple at the click point, radius 0,
maxRadius the larger surface dimension, opacity 1 (source handleClick). -/
def handleClick (x y width height : ℚ) (ripples : List Ripple) : List Ripple :=
  ripples ++ [{ x := x, y := y, radius := 0, maxRadius := max width height, opacity := 1 }]

/-- One advance of a single ripple: radius grows by rippleSpeed = 12 and
opacity drops by rippleFade = 0.02 (the map step of the animate loop). -/
def advanceRipple (r : Ripple) : Ripple :=
  { r with radius := r.radius + 12, opacity := r.opacity - 0.02 }

/-- The per-frame ripple update of the animate loop: advance every ripple,
then keep exactly those with positive opacity and radius below maxRadius. -/
def advanceRipples (ripples : List Ripple) : List Ripple :=
  (ripples.map advanceRipple).filter fun r => decide (0 < r.opacity ∧ r.radius < r.maxRadius)

/-- Horizontal center of cell i: col * cellWidth + cellWidth / 2 with
col = i % cols and cellWidth = width / cols, as in the animate loop. -/
def cellCenterX (width : ℚ) (i : ℕ) : ℚ :=
  (i % cols : ℕ) * (width / cols) + width / cols / 2

/-- Vertical center of cell i: row * cellHeight + cellHeight / 2 with
row = i / cols (integer division) and cellHeight = height / rows. -/
def cellCenterY (height : ℚ) (i : ℕ) : ℚ :=
  (i / cols : ℕ) * (height / rows) + height / rows / 2

/-- Euclidean distance between two points, as computed by Math.sqrt of the
sum of squared coordinate differences in the source. -/
noncomputable def distance (px py qx qy : ℚ) : ℝ :=
  Real.sqrt (((px : ℝ) - qx) ^ 2 + ((py : ℝ) - qy) ^ 2)

/-- Pointer proximity stimulus as a function of the computed distance:
max(0, 1 - distance / maxDistance) with maxDistance = 150. -/
noncomputable def mouseActivation (dist : ℝ) : ℝ := max 0 (1 - dist / 150)

/-- The inner ripple loop of the animate body: starting from an accumulator,
for each ripple compute the distance from the cell to the ripple origin and
the absolute offset from the ring; when that offset is below rippleWidth = 60
take the max of the accumulator with (1 - offset / 60) * opacity. -/
noncomputable def rippleActivationLoop (cx cy : ℚ) : List Ripple → ℝ → ℝ
  | [], acc => acc
  | r :: rest, acc =>
    rippleActivationLoop cx cy rest
      (if |distance r.x r.y cx cy - (r.radius : ℝ)| < 60 then
        max acc ((1 - |distance r.x r.y cx cy - (r.radius : ℝ)| / 60) * (r.opacity : ℝ))
      else acc)

/-- Ripple stimulus of a cell: the loop above started at 0. -/
noncomputable def rippleActivation (cx cy : ℚ) (ripples : List Ripple) : ℝ :=
  rippleActivationLoop cx cy ripples 0

/-- One activation field update of the animate loop: every cell becomes the
max of the decayed previous value (decay = 0.92), the pointer stimulus and
the ripple stimulus, computed at the cell center. -/
noncomputable def tickField (width height mouseX mouseY : ℚ) (ripples : List Ripple)
    (prev : Fin totalCells → ℝ) : Fin totalCells → ℝ :=
  fun i =>
    max (prev i * 0.92)
      (max (mouseActivation (distance mouseX mouseY (cellCenterX width i) (cellCenterY height i)))
        (rippleActivation (cellCenterX width i) (cellCenterY height i) ripples))

/-- The mouse move handler records the surface-local coordinates verbatim
(the source subtracts the bounding rect origin from the client point and
stores the result, with no bounds check). -/
def handleMouseMove (x y : ℚ) : ℚ × ℚ := (x, y)

/-- The mutable state of the component: pointer position, active ripples
and the activation field. -/
structure GridState where
  mouse : ℚ × ℚ
  ripples : List Ripple
  activations : Fin totalCells → ℝ

/-- External events: a pointer move, a click (with the current surface
size), an animation frame with the surface laid out (current width and
height), and an animation frame with the container absent, on which the
animate body returns early. -/
inductive Event where
  | mouseMove (x y : ℚ)
  | click (x y width height : ℚ)
  | tick (width height : ℚ)
  | tickNoContainer

/-- One transition of the component: moves update the pointer, clicks append
a ripple, a tick first advances the ripples and then recomputes the field
from the advanced list, and a tick without a container changes nothing. -/
noncomputable def step (s : GridState) : Event → GridState
  | .mouseMove x y => { s with mouse := handleMouseMove x y }
  | .click x y width height => { s with ripples := handleClick x y width height s.ripples }
  | .tick width height =>
    { s with
      ripples := advanceRipples s.ripples,
      activations := tickField width height s.mouse.1 s.mouse.2 (advanceRipples s.ripples) s.activations }
  | .tickNoContainer => s

/-- The initial state: pointer at the far-away sentinel (-1000, -1000),
no ripples, all activations 0. -/
def init : GridState :=
  { mouse := (-1000, -1000), ripples := [], activations := fun _ => 0 }

/-- Run a sequence of events from a state. -/
noncomputable def run (s : GridState) (events : List Event) : GridState :=
  events.foldl step s

/-- The visual parameters of one cell, as returned by getCharAndStyle. -/
structure CellStyle where
  char : Option String
  opacity : ℝ
  scale : ℝ

/-- The presentation mapper getCharAndStyle: symbol index is the floor of
activation * (chars.length - 1) clamped below by 0 (indexing out of range
yields none, as array access past the end is undefined in the source
language), opacity is 0.12 + activation * 0.88, scale is
1 + activation * 0.8. -/
noncomputable def getCharAndStyle (activation : ℝ) : CellStyle :=
  { char := chars.get? (max 0 ⌊activation * ((chars.length : ℝ) - 1)⌋).toNat,
    opacity := 0.12 + activation * 0.88,
    scale := 1 + activation * 0.8 }

/-- Per-ripple contribution as the specification words it: when the absolute
offset of the cell from the ring is below the ring width the contribution is
(1 - offset / 60) * opacity, otherwise 0.  Stated separately from the loop
so the loop can be proved to compute the maximum of these values. -/
noncomputable def rippleContributionSpec (cx cy : ℚ) (r : Ripple) : ℝ :=
  if |distance r.x r.y cx cy - (r.radius : ℝ)| < 60 then
    (1 - |distance r.x r.y cx cy - (r.radius : ℝ)| / 60) * (r.opacity : ℝ)
  else 0

/-- Cell index 0, used to instantiate per-cell statements. -/
def cell0 : Fin totalCells := ⟨0, by decide⟩

/-! Basic bounds on the stimuli. -/

lemma mouseActivation_nonneg (d : ℝ) : 0 ≤ mouseActivation d := le_max_left _ _

lemma mouseActivation_le_one (d : ℝ) (hd : 0 ≤ d) : mouseActivation d ≤ 1 := by
  have h : 0 ≤ d / 150 := by positivity
  exact max_le (by norm_num) (by linarith)

lemma mouseActivation_eq_zero (d : ℝ) (hd : 150 ≤ d) : mouseActivation d = 0 := by
  have h : (1 : ℝ) ≤ d / 150 := (one_le_div (by norm_num)).mpr hd
  exact max_eq_left (by linarith)

lemma distance_nonneg (px py qx qy : ℚ) : 0 ≤ distance px py qx qy :=
  Real.sqrt_nonneg _

lemma rippleActivationLoop_ge (cx cy : ℚ) :
    ∀ (rs : List Ripple) (acc : ℝ), acc ≤ rippleActivationLoop cx cy rs acc := by
  intro rs
  induction rs with
  | nil => intro acc; exact le_rfl
  | cons r rest ih =>
    intro acc
    refine le_trans ?_ (ih _)
    split
    · exact le_max_left _ _
    · exact le_rfl

lemma rippleActivationLoop_le_one (cx cy : ℚ) :
    ∀ (rs : List Ripple) (acc : ℝ), acc ≤ 1 → (∀ r ∈ rs, r.opacity ≤ 1) →
      rippleActivationLoop cx cy rs acc ≤ 1 := by
  intro rs
  induction rs with
  | nil => intro acc hacc _; exact hacc
  | cons r rest ih =>
    intro acc hacc hops
    have hop : (r.opacity : ℝ) ≤ 1 := by
      exact_mod_cast hops r (List.mem_cons_self r rest)
    have htail : ∀ q ∈ rest, q.opacity ≤ 1 := fun q hq => hops q (List.mem_cons_of_mem r hq)
    apply ih _ _ htail
    split
    · rename_i hlt
      set t := |distance r.x r.y cx cy - (r.radius : ℝ)| with ht
      have ht0 : 0 ≤ t := abs_nonneg _
      have hfac0 : 0 ≤ 1 - t / 60 := by
        have : t / 60 ≤ 1 := by rw [div_le_one (by norm_num)]; linarith
        linarith
      have hfac1 : 1 - t / 60 ≤ 1 := by
        have : 0 ≤ t / 60 := by positivity
        linarith
      have hring : (1 - t / 60) * (r.opacity : ℝ) ≤ 1 := by
        rcases le_or_lt (r.opacity : ℝ) 0 with hneg | hpos
        · exact le_trans (mul_nonpos_of_nonneg_of_nonpos hfac0 hneg) (by norm_num)
        · exact mul_le_one₀ hfac1 (le_of_lt hpos) hop
      exact max_le hacc hring
    · exact hacc

lemma rippleActivation_nonneg (cx cy : ℚ) (rs : List Ripple) :
    0 ≤ rippleActivation cx cy rs :=
  rippleActivationLoop_ge cx cy rs 0

lemma rippleActivation_le_one (cx cy : ℚ) (rs : List Ripple)
    (hops : ∀ r ∈ rs, r.opacity ≤ 1) : rippleActivation cx cy rs ≤ 1 :=
  rippleActivationLoop_le_one cx cy rs 0 (by norm_num) hops

lemma rippleActivation_nil (cx cy : ℚ) : rippleActivation cx cy [] = 0 := rfl

/-! Membership in the advanced ripple list. -/

lemma mem_advanceRipples (rs : List Ripple) (r : Ripple) :
    r ∈ advanceRipples rs ↔
      (∃ r₀ ∈ rs, advanceRipple r₀ = r) ∧ (0 < r.opacity ∧ r.radius < r.maxRadius) := by
  unfold advanceRipples
  rw [List.mem_filter, List.mem_map]
  simp only [decide_eq_true_eq]

lemma opacity_le_one_handleClick (x y w h : ℚ) (rs : List Ripple)
    (hops : ∀ r ∈ rs, r.opacity ≤ 1) :
    ∀ r ∈ handleClick x y w h rs, r.opacity ≤ 1 := by
  intro r hr
  unfold handleClick at hr
  rcases List.mem_append.mp hr with hold | hnew
  · exact hops r hold
  · rw [List.mem_singleton] at hnew
    subst hnew
    norm_num

lemma opacity_le_one_advanceRipples (rs : List Ripple)
    (hops : ∀ r ∈ rs, r.opacity ≤ 1) :
    ∀ r ∈ advanceRipples rs, r.opacity ≤ 1 := by
  intro r hr
  obtain ⟨⟨r₀, hr₀, rfl⟩, _⟩ := (mem_advanceRipples rs r).mp hr
  have := hops r₀ hr₀
  unfold advanceRipple
  dsimp only
  linarith

/-! Bounds on the field update. -/

lemma tickField_nonneg (w h mx my : ℚ) (rs : List Ripple) (f : Fin totalCells → ℝ)
    (i : Fin totalCells) : 0 ≤ tickField w h mx my rs f i := by
  unfold tickField
  exact le_trans (mouseActivation_nonneg _) (le_trans (le_max_left _ _) (le_max_right _ _))

lemma tickField_le_one (w h mx my : ℚ) (rs : List Ripple) (f : Fin totalCells → ℝ)
    (i : Fin totalCells) (h1 : f i ≤ 1)
    (hops : ∀ r ∈ rs, r.opacity ≤ 1) : tickField w h mx my rs f i ≤ 1 := by
  unfold tickField
  refine max_le (mul_le_one₀ h1 (by norm_num) (by norm_num)) (max_le ?_ ?_)
  · exact mouseActivation_le_one _ (distance_nonneg _ _ _ _)
  · exact rippleActivation_le_one _ _ rs hops

/-! The reachable-state invariant: the field is within the unit interval
and every active ripple has opacity at most 1. -/

def GridInv (s : GridState) : Prop :=
  (∀ i, 0 ≤ s.activations i ∧ s.activations i ≤ 1) ∧ ∀ r ∈ s.ripples, r.opacity ≤ 1

lemma gridInv_init : GridInv init := by
  constructor
  · intro i
    exact ⟨le_rfl, by norm_num [init]⟩
  · intro r hr
    simp [init] at hr

lemma gridInv_step (s : GridState) (e : Event) (hs : GridInv s) : GridInv (step s e) := by
  obtain ⟨hf, hops⟩ := hs
  cases e with
  | mouseMove x y => exact ⟨hf, hops⟩
  | click x y w h => exact ⟨hf, opacity_le_one_handleClick x y w h s.ripples hops⟩
  | tick w h =>
    refine ⟨?_, opacity_le_one_advanceRipples s.ripples hops⟩
    intro i
    refine ⟨tickField_nonneg _ _ _ _ _ _ _, ?_⟩
    exact tickField_le_one _ _ _ _ _ _ _ (hf i).2 (opacity_le_one_advanceRipples s.ripples hops)
  | tickNoContainer => exact ⟨hf, hops⟩

lemma gridInv_run (events : List Event) : ∀ (s : GridState), GridInv s → GridInv (run s events) := by
  induction events with
  | nil => intro s hs; exact hs
  | cons e rest ih =>
    intro s hs
    exact ih (step s e) (gridInv_step s e hs)

/-! The far-away sentinel produces no pointer stimulus at any cell. -/

lemma cellCenterX_nonneg (w : ℚ) (hw : 0 ≤ w) (i : ℕ) : 0 ≤ cellCenterX w i := by
  unfold cellCenterX
  have h1 : (0 : ℚ) ≤ w / cols := div_nonneg hw (by norm_num)
  have h2 : (0 : ℚ) ≤ ((i % cols : ℕ) : ℚ) := Nat.cast_nonneg _
  have h3 : (0 : ℚ) ≤ w / cols / 2 := by linarith
  nlinarith

lemma cellCenterY_nonneg (h : ℚ) (hh : 0 ≤ h) (i : ℕ) : 0 ≤ cellCenterY h i := by
  unfold cellCenterY
  have h1 : (0 : ℚ) ≤ h / rows := div_nonneg hh (by norm_num)
  have h2 : (0 : ℚ) ≤ ((i / cols : ℕ) : ℚ) := Nat.cast_nonneg _
  have h3 : (0 : ℚ) ≤ h / rows / 2 := by linarith
  nlinarith

lemma sentinel_distance_ge (cx cy : ℚ) (hx : 0 ≤ cx) (hy : 0 ≤ cy) :
    150 ≤ distance (-1000) (-1000) cx cy := by
  unfold distance
  apply Real.le_sqrt_of_sq_le
  have hx' : (0 : ℝ) ≤ (cx : ℝ) := by exact_mod_cast hx
  have hy' : (0 : ℝ) ≤ (cy : ℝ) := by exact_mod_cast hy
  push_cast
  nlinarith [sq_nonneg ((-1000 : ℝ) - cy)]

lemma sentinel_mouseActivation (cx cy : ℚ) (hx : 0 ≤ cx) (hy : 0 ≤ cy) :
    mouseActivation (distance (-1000) (-1000) cx cy) = 0 :=
  mouseActivation_eq_zero _ (sentinel_distance_ge cx cy hx hy)

lemma tickField_sentinel (w h : ℚ) (hw : 0 ≤ w) (hh : 0 ≤ h)
    (f : Fin totalCells → ℝ) (i : Fin totalCells) (hf : 0 ≤ f i) :
    tickField w h (-1000) (-1000) [] f i = f i * 0.92 := by
  unfold tickField
  rw [sentinel_mouseActivation _ _ (cellCenterX_nonneg w hw i) (cellCenterY_nonneg h hh i),
    rippleActivation_nil, max_self]
  exact max_eq_left (by positivity)

/-! The ripple loop computes the maximum of the per-ripple contributions. -/

lemma foldr_max_shift (c : ℝ) :
    ∀ (l : List ℝ) (acc : ℝ), l.foldr max (max acc c) = max c (l.foldr max acc) := by
  intro l
  induction l with
  | nil => intro acc; rw [List.foldr_nil, List.foldr_nil, max_comm]
  | cons x t ih =>
    intro acc
    rw [List.foldr_cons, List.foldr_cons, ih acc, max_left_comm]

lemma rippleActivationLoop_eq_foldr (cx cy : ℚ) :
    ∀ (rs : List Ripple) (acc : ℝ), 0 ≤ acc →
      rippleActivationLoop cx cy rs acc =
        (rs.map (rippleContributionSpec cx cy)).foldr max acc := by
  intro rs
  induction rs with
  | nil => intro acc _; rfl
  | cons r rest ih =>
    intro acc hacc
    have hstep :
        (if |distance r.x r.y cx cy - (r.radius : ℝ)| < 60 then
          max acc ((1 - |distance r.x r.y cx cy - (r.radius : ℝ)| / 60) * (r.opacity : ℝ))
        else acc) = max acc (rippleContributionSpec cx cy r) := by
      unfold rippleContributionSpec
      split
      · rfl
      · exact (max_eq_left hacc).symm
    show rippleActivationLoop cx cy rest _ = _
    rw [hstep, ih (max acc (rippleContributionSpec cx cy r)) (le_trans hacc (le_max_left _ _)),
      List.map_cons, List.foldr_cons, foldr_max_shift]

/-! Iterated single-ripple advance. -/

lemma advanceRipple_iterate (k : ℕ) (r : Ripple) :
    (advanceRipple^[k] r).x = r.x ∧ (advanceRipple^[k] r).y = r.y ∧
    (advanceRipple^[k] r).maxRadius = r.maxRadius ∧
    (advanceRipple^[k] r).radius = r.radius + 12 * k ∧
    (advanceRipple^[k] r).opacity = r.opacity - 0.02 * k := by
  induction k with
  | zero => simp
  | succ n ih =>
    obtain ⟨hx, hy, hm, hr, ho⟩ := ih
    rw [Function.iterate_succ_apply']
    refine ⟨hx, hy, hm, ?_, ?_⟩
    · show (advanceRipple^[n] r).radius + 12 = r.radius + 12 * ((n + 1 : ℕ) : ℚ)
      rw [hr]
      push_cast
      ring
    · show (advanceRipple^[n] r).opacity - 0.02 = r.opacity - 0.02 * ((n + 1 : ℕ) : ℚ)
      rw [ho]
      push_cast
      ring

/-! Opacity strictly drops along iterated list advances. -/

lemma advanceRipples_member_pos (rs : List Ripple) (r : Ripple)
    (h : r ∈ advanceRipples rs) : 0 < r.opacity ∧ r.radius < r.maxRadius :=
  ((mem_advanceRipples rs r).mp h).2

lemma iterate_advanceRipples_opacity :
    ∀ (k : ℕ) (rs : List Ripple) (r : Ripple), r ∈ advanceRipples^[k] rs →
      ∃ r₀ ∈ rs, r.opacity = r₀.opacity - 0.02 * k := by
  intro k
  induction k with
  | zero =>
    intro rs r hr
    exact ⟨r, hr, by norm_num⟩
  | succ n ih =>
    intro rs r hr
    rw [Function.iterate_succ_apply'] at hr
    obtain ⟨⟨r₁, hr₁, rfl⟩, _⟩ := (mem_advanceRipples _ _).mp hr
    obtain ⟨r₀, hr₀, h₀⟩ := ih rs r₁ hr₁
    refine ⟨r₀, hr₀, ?_⟩
    unfold advanceRipple
    dsimp only
    rw [h₀]
    push_cast
    ring

/-! Claim theorems. -/

/-- C1: starting from the all-zero activation field, after any sequence of
pointer moves, clicks and ticks, every cell activation lies in the unit
interval; no tick update produces a value below 0 or above 1, with no
explicit clamp after the combination step. -/
theorem activation_stays_in_unit_interval (events : List Event) (i : Fin totalCells) :
    0 ≤ (run init events).activations i ∧ (run init events).activations i ≤ 1 :=
  (gridInv_run events init gridInv_init).1 i

/-- C2: one field update sets every cell to the maximum of the decayed prior
value, the pointer stimulus and the ripple stimulus, so the new value never
falls below prev * 0.92; the pointer stimulus is 1 at distance 0, is 0 at
distance at least 150 and is linear in between. -/
theorem tick_combination_rule :
    (∀ (w h mx my : ℚ) (rs : List Ripple) (f : Fin totalCells → ℝ) (i : Fin totalCells),
        tickField w h mx my rs f i =
          max (f i * 0.92)
            (max (mouseActivation (distance mx my (cellCenterX w i) (cellCenterY h i)))
              (rippleActivation (cellCenterX w i) (cellCenterY h i) rs)) ∧
        f i * 0.92 ≤ tickField w h mx my rs f i) ∧
    mouseActivation 0 = 1 ∧
    (∀ d : ℝ, 150 ≤ d → mouseActivation d = 0) ∧
    (∀ d : ℝ, 0 ≤ d → d ≤ 150 → mouseActivation d = 1 - d / 150) := by
  refine ⟨fun w h mx my rs f i => ⟨rfl, le_max_left _ _⟩, ?_, mouseActivation_eq_zero, ?_⟩
  · unfold mouseActivation
    norm_num
  · intro d h0 h150
    unfold mouseActivation
    have h : d / 150 ≤ 1 := by
      rw [div_le_one (by norm_num)]
      linarith
    exact max_eq_right (by linarith)

/-- Witness for C2 at concrete distances 0, 200 and 75. -/
theorem tick_combination_rule_witness :
    mouseActivation 0 = 1 ∧ mouseActivation 200 = 0 ∧ mouseActivation 75 = 1 - 75 / 150 :=
  ⟨tick_combination_rule.2.1, tick_combination_rule.2.2.1 200 (by norm_num),
    tick_combination_rule.2.2.2 75 (by norm_num) (by norm_num)⟩

/-- C3: the ripple stimulus of a cell is exactly the maximum, over the active
ripples, of the per-ripple ring contribution (0 when the cell is at offset at
least 60 from the ring), combined by maximum and never summed. -/
theorem ripple_stimulus_is_max_of_contributions (cx cy : ℚ) (rs : List Ripple) :
    rippleActivation cx cy rs = (rs.map (rippleContributionSpec cx cy)).foldr max 0 :=
  rippleActivationLoop_eq_foldr cx cy rs 0 le_rfl

/-- C7: with the pointer at the far-away sentinel and no ripples, each tick
multiplies every nonnegative cell activation by exactly 0.92; a positive
activation stays positive forever and the geometric sequence tends to 0. -/
theorem decay_is_geometric :
    (∀ (w h : ℚ), 0 ≤ w → 0 ≤ h → ∀ (f : Fin totalCells → ℝ) (i : Fin totalCells), 0 ≤ f i →
      ∀ t : ℕ, ((fun g => tickField w h (-1000) (-1000) [] g)^[t] f) i = f i * 0.92 ^ t) ∧
    (∀ a : ℝ, 0 < a → ∀ t : ℕ, 0 < a * 0.92 ^ t) ∧
    (∀ a : ℝ, Filter.Tendsto (fun t : ℕ => a * 0.92 ^ t) Filter.atTop (nhds 0)) := by
  refine ⟨?_, ?_, ?_⟩
  · intro w h hw hh f i hf t
    induction t with
    | zero => simp
    | succ n ih =>
      rw [Function.iterate_succ_apply']
      have hpos : 0 ≤ ((fun g => tickField w h (-1000) (-1000) [] g)^[n] f) i := by
        rw [ih]
        positivity
      show tickField w h (-1000) (-1000) []
          ((fun g => tickField w h (-1000) (-1000) [] g)^[n] f) i = f i * 0.92 ^ (n + 1)
      rw [tickField_sentinel w h hw hh _ i hpos, ih]
      ring
  · intro a ha t
    positivity
  · intro a
    have h := tendsto_pow_atTop_nhds_zero_of_lt_one
      (by norm_num : (0 : ℝ) ≤ 0.92) (by norm_num : (0.92 : ℝ) < 1)
    simpa using h.const_mul a

/-- Witness for C7: one sentinel tick on the all-one field at surface
280 by 180 scales cell 0 by 0.92. -/
theorem decay_is_geometric_witness :
    ((fun g => tickField 280 180 (-1000) (-1000) [] g)^[1] (fun _ => (1 : ℝ))) cell0
      = 1 * 0.92 ^ 1 :=
  decay_is_geometric.1 280 180 (by norm_num) (by norm_num) (fun _ => 1) cell0 (by norm_num) 1

/-- C4: a click appends exactly one ripple at the click point with radius 0,
opacity 1 and maxRadius the larger surface dimension; after k advances that
ripple has radius 12k and opacity 1 - 0.02k; an advanced ripple is kept in
the active set exactly when neither removal condition (opacity at most 0, or
radius at least maxRadius) holds; and every member of the advanced set is
the advance of a member of the previous set, so a removed ripple never
reappears. -/
theorem ripple_lifecycle :
    (∀ (x y w h : ℚ) (rs : List Ripple),
        handleClick x y w h rs =
          rs ++ [{ x := x, y := y, radius := 0, maxRadius := max w h, opacity := 1 }]) ∧
    (∀ (x y w h : ℚ) (k : ℕ),
        (advanceRipple^[k]
            { x := x, y := y, radius := 0, maxRadius := max w h, opacity := 1 }).radius
          = 12 * k ∧
        (advanceRipple^[k]
            { x := x, y := y, radius := 0, maxRadius := max w h, opacity := 1 }).opacity
          = 1 - 0.02 * k) ∧
    (∀ (rs : List Ripple) (r : Ripple), r ∈ rs →
        (advanceRipple r ∈ advanceRipples rs ↔
          ¬((advanceRipple r).opacity ≤ 0 ∨
            (advanceRipple r).maxRadius ≤ (advanceRipple r).radius))) ∧
    (∀ (rs : List Ripple) (r : Ripple), r ∈ advanceRipples rs →
        (∃ r₀ ∈ rs, advanceRipple r₀ = r) ∧ 0 < r.opacity ∧ r.radius < r.maxRadius) := by
  refine ⟨fun _ _ _ _ _ => rfl, ?_, ?_, ?_⟩
  · intro x y w h k
    obtain ⟨-, -, -, hr, ho⟩ := advanceRipple_iterate k
      { x := x, y := y, radius := 0, maxRadius := max w h, opacity := 1 }
    constructor
    · rw [hr]
      ring
    · rw [ho]
  · intro rs r hr
    rw [mem_advanceRipples]
    constructor
    · rintro ⟨-, hpos, hlt⟩
      push_neg
      exact ⟨hpos, hlt⟩
    · intro hn
      push_neg at hn
      exact ⟨⟨r, hr, rfl⟩, hn⟩
  · intro rs r hr
    exact (mem_advanceRipples rs r).mp hr

/-- Witness for C4: the first advance of a fresh ripple with maxRadius 100
stays in the active set. -/
theorem ripple_lifecycle_witness :
    advanceRipple { x := 0, y := 0, radius := 0, maxRadius := 100, opacity := 1 } ∈
      advanceRipples [{ x := 0, y := 0, radius := 0, maxRadius := 100, opacity := 1 }] := by
  refine (ripple_lifecycle.2.2.1 _ _ (List.mem_singleton.mpr rfl)).mpr ?_
  norm_num [advanceRipple]

/-- C10: any ripple population whose opacities are at most 1 (as holds for
every ripple from its creation) is fully removed after at most 50 advances,
regardless of maxRadius, because opacity 1 - 0.02k is no longer positive at
k = 50. -/
theorem ripples_expire_within_50_advances (rs : List Ripple)
    (hops : ∀ r ∈ rs, r.opacity ≤ 1) :
    ∀ k : ℕ, 50 ≤ k → advanceRipples^[k] rs = [] := by
  intro k hk
  rw [List.eq_nil_iff_forall_not_mem]
  intro r hr
  obtain ⟨r₀, hr₀, h₀⟩ := iterate_advanceRipples_opacity k rs r hr
  obtain ⟨m, rfl⟩ : ∃ m, k = m + 1 := ⟨k - 1, by omega⟩
  rw [Function.iterate_succ_apply'] at hr
  have hpos := (advanceRipples_member_pos _ _ hr).1
  have hk50 : (50 : ℚ) ≤ ((m + 1 : ℕ) : ℚ) := by exact_mod_cast hk
  have hle := hops r₀ hr₀
  rw [h₀] at hpos
  linarith

/-- Witness for C10: a single fresh ripple with a huge maxRadius is gone
after exactly 50 advances. -/
theorem ripples_expire_within_50_advances_witness :
    advanceRipples^[50] [{ x := 0, y := 0, radius := 0, maxRadius := 1000000, opacity := 1 }]
      = [] :=
  ripples_expire_within_50_advances _
    (by
      intro r hr
      rw [List.mem_singleton] at hr
      subst hr
      norm_num)
    50 le_rfl

/-- C8: the presentation mapper returns the symbol at index
floor(activation * (N - 1)) clamped below by 0 over the N = 5 symbol
palette, opacity 0.12 + activation * 0.88 and scale 1 + activation * 0.8. -/
theorem mapper_formulas (a : ℝ) :
    (getCharAndStyle a).char = chars.get? (max 0 ⌊a * 4⌋).toNat ∧
    (getCharAndStyle a).opacity = 0.12 + a * 0.88 ∧
    (getCharAndStyle a).scale = 1 + a * 0.8 := by
  refine ⟨?_, rfl, rfl⟩
  have h4 : ((chars.length : ℝ) - 1) = 4 := by norm_num [chars]
  simp only [getCharAndStyle, h4]

/-- C9: for activation in the unit interval the clamped symbol index is
always below the palette length, so the palette lookup always succeeds even
though the code never clamps the upper bound. -/
theorem char_index_always_in_bounds (a : ℝ) (h0 : 0 ≤ a) (h1 : a ≤ 1) :
    (max 0 ⌊a * ((chars.length : ℝ) - 1)⌋).toNat < chars.length ∧
    ((getCharAndStyle a).char).isSome = true := by
  have h4 : ((chars.length : ℝ) - 1) = 4 := by norm_num [chars]
  have hfloor : ⌊a * ((chars.length : ℝ) - 1)⌋ ≤ 4 := by
    rw [h4]
    have hle : a * 4 ≤ 4 := by nlinarith
    calc ⌊a * 4⌋ ≤ ⌊(4 : ℝ)⌋ := Int.floor_le_floor hle
      _ = 4 := by norm_num
  have hmax : max 0 ⌊a * ((chars.length : ℝ) - 1)⌋ ≤ 4 := max_le (by norm_num) hfloor
  have htn : (max 0 ⌊a * ((chars.length : ℝ) - 1)⌋).toNat ≤ 4 := by
    have h := Int.toNat_le_toNat hmax
    simpa using h
  have hidx : (max 0 ⌊a * ((chars.length : ℝ) - 1)⌋).toNat < chars.length :=
    Nat.lt_succ_of_le htn
  refine ⟨hidx, ?_⟩
  simp only [getCharAndStyle]
  rw [List.get?_eq_get hidx]
  rfl

/-- Witness for C9 at activation one half. -/
theorem char_index_always_in_bounds_witness :
    (max 0 ⌊(1 / 2 : ℝ) * ((chars.length : ℝ) - 1)⌋).toNat < chars.length ∧
    ((getCharAndStyle (1 / 2 : ℝ)).char).isSome = true :=
  char_index_always_in_bounds (1 / 2) (by norm_num) (by norm_num)

/-- C5 as stated is false: a pointer move with a negative, out-of-bounds
coordinate is recorded verbatim, not replaced by the far-away sentinel, and
on the next tick cell 0 of a 280 by 180 surface does receive a positive
pointer stimulus from that out-of-bounds position. -/
theorem out_of_bounds_move_keeps_raw_coords :
    (step init (.mouseMove (-10) 5)).mouse ≠ ((-1000 : ℚ), (-1000 : ℚ)) ∧
    0 < tickField 280 180 (-10) 5 [] (fun _ => 0) cell0 := by
  constructor
  · simp only [step, handleMouseMove, init, ne_eq, Prod.mk.injEq, not_and]
    intro h
    norm_num at h
  · have hcx : cellCenterX 280 ((cell0 : Fin totalCells) : ℕ) = 5 := by
      norm_num [cellCenterX, cell0, cols]
    have hcy : cellCenterY 180 ((cell0 : Fin totalCells) : ℕ) = 5 := by
      norm_num [cellCenterY, cell0, cols, rows]
    have hd : distance (-10) 5 5 5 = 15 := by
      unfold distance
      push_cast
      norm_num
      rw [show (225 : ℝ) = 15 ^ 2 by norm_num, Real.sqrt_sq (by norm_num : (0 : ℝ) ≤ 15)]
    unfold tickField
    rw [hcx, hcy, hd, rippleActivation_nil]
    have hm : (0 : ℝ) < mouseActivation 15 := by
      unfold mouseActivation
      rw [lt_max_iff]
      right
      norm_num
    rw [lt_max_iff]
    right
    rw [lt_max_iff]
    left
    exact hm

/-- C5 amended: the move handler records the raw surface-local coordinates
unconditionally; the far-away sentinel (-1000, -1000) is only the initial
pointer state, and while the pointer sits at the sentinel every cell of any
surface with nonnegative dimensions receives zero pointer stimulus. -/
theorem pointer_move_and_sentinel_semantics :
    init.mouse = (-1000, -1000) ∧
    (∀ (s : GridState) (x y : ℚ), (step s (.mouseMove x y)).mouse = (x, y)) ∧
    ∀ (w h : ℚ), 0 ≤ w → 0 ≤ h → ∀ i : ℕ,
      mouseActivation (distance (-1000) (-1000) (cellCenterX w i) (cellCenterY h i)) = 0 := by
  refine ⟨rfl, fun s x y => rfl, ?_⟩
  intro w h hw hh i
  exact sentinel_mouseActivation _ _ (cellCenterX_nonneg w hw i) (cellCenterY_nonneg h hh i)

/-- Witness for the amended C5 at surface 280 by 180 and cell index 0. -/
theorem pointer_move_and_sentinel_semantics_witness :
    mouseActivation (distance (-1000) (-1000) (cellCenterX 280 0) (cellCenterY 180 0)) = 0 :=
  pointer_move_and_sentinel_semantics.2.2 280 180 (by norm_num) (by norm_num) 0

/-- C6 as stated is false: on a tick with a zero-sized surface the field is
not left unchanged; starting from the all-one field with the pointer at the
sentinel and no ripples, the tick still applies decay at cell 0. -/
theorem zero_size_tick_still_decays :
    (step { mouse := (-1000, -1000), ripples := [], activations := fun _ => 1 }
        (.tick 0 0)).activations cell0 ≠ 1 := by
  show tickField 0 0 (-1000) (-1000) (advanceRipples []) (fun _ => 1) cell0 ≠ 1
  rw [show advanceRipples [] = [] from rfl,
    tickField_sentinel 0 0 le_rfl le_rfl _ cell0 (by norm_num)]
  norm_num

/-- C6 amended: the animate body skips a tick (state unchanged) only when
the container is absent; with the surface reporting zero width and height
the update runs anyway, all cell centers collapse to the origin, decay is
still applied, and no division by the cell dimensions occurs (the code only
divides by the constant column and row counts). -/
theorem zero_size_tick_computes_at_origin :
    (∀ s : GridState, step s .tickNoContainer = s) ∧
    ∀ (mx my : ℚ) (rs : List Ripple) (f : Fin totalCells → ℝ) (i : Fin totalCells),
      tickField 0 0 mx my rs f i =
        max (f i * 0.92)
          (max (mouseActivation (distance mx my 0 0)) (rippleActivation 0 0 rs)) := by
  refine ⟨fun s => rfl, ?_⟩
  intro mx my rs f i
  have hx : cellCenterX 0 ((i : Fin totalCells) : ℕ) = 0 := by
    norm_num [cellCenterX]
  have hy : cellCenterY 0 ((i : Fin totalCells) : ℕ) = 0 := by
    norm_num [cellCenterY]
  unfold tickField
  rw [hx, hy]
